import Mathlib

/-!
Verification development for the AI-Data-Analyst repository.

The definitions below are a shallow embedding, translated from the Python
source files (`langchain_db_toolkit.py`, `langchain_agent.py`, `db_manager.py`,
`database_connection.py`, `main.py`).  Python strings are `String`, dictionaries
become structures or association lists, exceptions become `Option`/`Except` or
dedicated error constructors, and the two regular expressions used for SQL
extraction are modelled as executable scanning functions over `List Char`
with Python `re.findall` semantics (leftmost, non-overlapping, lazy capture).
-/

/-! ## Character and string helpers

These model the Python primitives used by the source: `str.lower`,
`str.upper`, `str.strip`, substring containment (`in`), `str.startswith`.
-/

/-- Lowercase every character of a character list (models `str.lower()`). -/
def lowerL (l : List Char) : List Char := l.map Char.toLower

/-- Uppercase every character of a character list (models `str.upper()`). -/
def upperL (l : List Char) : List Char := l.map Char.toUpper

/-- Boolean test that the first list occurs at the head of the second. -/
def isPrefixB : List Char → List Char → Bool
  | [], _ => true
  | _ :: _, [] => false
  | a :: as, b :: bs => (a == b) && isPrefixB as bs

/-- Boolean substring containment on character lists: the needle occurs at
some position of the haystack (models Python `needle in haystack`). -/
def hasSubL (needle : List Char) : List Char → Bool
  | [] => isPrefixB needle []
  | c :: cs => isPrefixB needle (c :: cs) || hasSubL needle cs

/-- Substring containment on strings (models Python `needle in hay`). -/
def strContains (hay needle : String) : Bool :=
  hasSubL needle.toList hay.toList

/-- Lowercase a string (models `s.lower()`). -/
def strLower (s : String) : String := String.mk (lowerL s.toList)

/-- Drop whitespace from both ends of a character list (models `str.strip()`). -/
def stripChars (l : List Char) : List Char :=
  ((l.dropWhile Char.isWhitespace).reverse.dropWhile Char.isWhitespace).reverse

/-- Strip a string's whitespace at both ends (models `str.strip()`). -/
def stripStr (s : String) : String := String.mk (stripChars s.toList)

/-! ## The execution trace model

`agent_result` in the source is an untyped dictionary with an
`intermediate_steps` list (pairs of a LangChain `AgentAction` and an
observation) plus further keys (`input`, `output`, ...).  `flat` models the
Python string `str(agent_result)`: the printed form of the whole dictionary,
which contains text beyond the steps and is the input of the regex fallbacks.
-/

/-- A LangChain agent action: `tool` is `none` when the object has no `tool`
attribute (the source guards with `hasattr(action, 'tool')`). -/
structure AgentAction where
  tool : Option String
  tool_input : String
deriving DecidableEq

/-- One entry of `intermediate_steps`: either a tuple of length at least two
(an action paired with the tuple's second element, the observation), or a
malformed entry that fails the source's `isinstance(step, tuple)` check. -/
inductive TraceStep
  | pair (action : AgentAction) (obs : String)
  | malformed
deriving DecidableEq

/-- The agent result consumed by the extractor: its step list and the
flattened text `str(agent_result)`. -/
structure AgentResult where
  steps : List TraceStep
  flat : String
deriving DecidableEq

/-- The uppercase keyword checked by `query.upper().startswith("SELECT")`. -/
def selUpper : List Char := "SELECT".toList

/-- The lowercase select keyword, used for case-insensitive matching. -/
def selLower : List Char := "select".toList

/-- Strategy 1 of `EnhancedDatabaseManager._extract_sql_query`, per step:
for a well-formed pair whose action's tool is `"sql_db_query"`, take the
tuple's second element, cut it at the first `[`, strip it, and keep it when
its uppercase form starts with `SELECT`. -/
def stepCandidate : TraceStep → Option String
  | .pair a obs =>
    if a.tool == some "sql_db_query" then
      let q := stripChars (obs.toList.takeWhile (fun c => c != '['))
      if isPrefixB selUpper (upperL q) then some (String.mk q) else none
    else none
  | .malformed => none

/-- The step loop of strategy 1: return on the first step that yields a
candidate (the source's `for` loop contains a `return`). -/
def scanSteps : List TraceStep → Option String
  | [] => none
  | s :: rest =>
    match stepCandidate s with
    | some q => some q
    | none => scanSteps rest

/-- The per-step extraction of `LangChainAgent.process_query`: a well-formed
pair whose tool is `"sql_db_query"` contributes its action's `tool_input`. -/
def lcaCand : TraceStep → Option String
  | .pair a _ =>
    if a.tool == some "sql_db_query" then some a.tool_input else none
  | .malformed => none

/-- The extraction loop of `LangChainAgent.process_query`: it overwrites
`sql_query` on every match and never breaks, so the last match survives. -/
def lcaScan : List TraceStep → Option String → Option String
  | [], acc => acc
  | s :: rest, acc =>
    match lcaCand s with
    | some ti => lcaScan rest (some ti)
    | none => lcaScan rest acc

/-- SQL extraction as performed by `LangChainAgent.process_query`
(`langchain_agent.py`, lines 74-79), starting from `sql_query = None`. -/
def lcaExtractSql (steps : List TraceStep) : Option String :=
  lcaScan steps none

/-! ## The two extraction regexes

`_extract_sql_query` falls back to
`re.findall(r"Action Input: (SELECT.*?)(?:\x5b|\n|$)", str(agent_result), re.IGNORECASE | re.DOTALL)`
and `process_query` has a final raw fallback
`re.findall(r"SELECT.*?(?=\x5b|$)", raw_text, re.IGNORECASE | re.DOTALL)`.
Both are modelled as left-to-right non-overlapping scans with lazy capture;
fuel equal to the input length bounds the recursion.  The end-of-string
anchor is modelled as the literal end of the character list.
-/

/-- Case-insensitive comparison of a (lowercase) pattern against the head of
a text: each pattern character must equal the lowered text character. -/
def ciHasPrefix : List Char → List Char → Bool
  | [], _ => true
  | _ :: _, [] => false
  | p :: ps, c :: cs => (p == Char.toLower c) && ciHasPrefix ps cs

/-- The lowered literal part of the fallback pattern in
`_extract_sql_query`: `Action Input: SELECT`, compared case-insensitively. -/
def aiPat : List Char := "action input: select".toList

/-- The 14-character head `Action Input: ` of `aiPat` (lowered). -/
def aiHead : List Char := "action input: ".toList

/-- Lazy capture of `.*?` up to the group `(?:[|\n|$)`: returns the shortest
pre-delimiter segment together with the text after the consumed delimiter
(the whole remaining text is consumed when neither delimiter occurs). -/
def lazySpan : List Char → List Char × List Char
  | [] => ([], [])
  | c :: cs =>
    if c == '[' || c == '\n' then ([], cs)
    else
      let r := lazySpan cs
      (c :: r.1, r.2)

/-- Fueled scan for `Action Input: (SELECT.*?)(?:[|\n|$)`: at each position,
on a case-insensitive match of the 20-character literal part, capture the
6 `SELECT` characters as written plus the lazy body, consume the delimiter,
and continue after the match; otherwise advance one character. -/
def findallAIFuel : Nat → List Char → List (List Char)
  | 0, _ => []
  | _ + 1, [] => []
  | fuel + 1, c :: cs =>
    if ciHasPrefix aiPat (c :: cs) then
      let afterPat := List.drop 13 cs
      let body := lazySpan (List.drop 6 afterPat)
      (List.take 6 afterPat ++ body.1) :: findallAIFuel fuel body.2
    else
      findallAIFuel fuel cs

/-- All matches of the `Action Input: (SELECT...)` fallback regex. -/
def findallAI (cs : List Char) : List (List Char) :=
  findallAIFuel cs.length cs

/-- Lazy `.*?` body of the raw fallback up to the lookahead `(?=[|$)`: the
delimiter is not consumed, so the remainder starts at the `[` when present. -/
def lazySpanRaw : List Char → List Char × List Char
  | [] => ([], [])
  | c :: cs =>
    if c == '[' then ([], c :: cs)
    else
      let r := lazySpanRaw cs
      (c :: r.1, r.2)

/-- Fueled scan for the raw fallback `SELECT.*?(?=[|$)` of `process_query`:
on a case-insensitive `SELECT` at the current position, capture the keyword
as written plus the lazy body and continue at the match end (the lookahead
consumes nothing); otherwise advance one character. -/
def findallRawFuel : Nat → List Char → List (List Char)
  | 0, _ => []
  | _ + 1, [] => []
  | fuel + 1, c :: cs =>
    if ciHasPrefix selLower (c :: cs) then
      let body := lazySpanRaw (List.drop 5 cs)
      (List.take 6 (c :: cs) ++ body.1) :: findallRawFuel fuel body.2
    else
      findallRawFuel fuel cs

/-- All matches of the raw `SELECT...` fallback regex of `process_query`. -/
def findallRawSelect (cs : List Char) : List (List Char) :=
  findallRawFuel cs.length cs

/-! ## The trace extractor and the extraction stage of `process_query` -/

/-- `EnhancedDatabaseManager._extract_sql_query` (`langchain_db_toolkit.py`,
lines 144-170): strategy 1 scans the steps and returns on the first hit;
strategy 2 runs the `Action Input:` regex on the flattened text, guarded by
the literal substring test `"action_input" in str(agent_result).lower()`,
and keeps the last match, stripped.  `none` models the final
`raise ValueError("No SQL query found in agent result")`. -/
def extractSqlQuery (r : AgentResult) : Option String :=
  match scanSteps r.steps with
  | some q => some q
  | none =>
    if strContains (strLower r.flat) "action_input" then
      match (findallAI r.flat.toList).getLast? with
      | some cap => some (String.mk (stripChars cap))
      | none => none
    else none

/-- The raw-text fallback inside `process_query`'s inner `except` handler:
the last match of the raw `SELECT` regex over `str(agent_result)`, stripped. -/
def rawFallback (r : AgentResult) : Option String :=
  match (findallRawSelect r.flat.toList).getLast? with
  | some cap => some (String.mk (stripChars cap))
  | none => none

/-- The extraction stage of `EnhancedDatabaseManager.process_query` (lines
88-101): call `_extract_sql_query`; an empty result raises and any raised
error is handled by trying the raw fallback; `none` models the final
`raise ValueError("Could not extract SQL query")`. -/
def extractStage (r : AgentResult) : Option String :=
  match extractSqlQuery r with
  | some q => if q == "" then rawFallback r else some q
  | none => rawFallback r

/-- Result of `process_query` as far as extraction decides it. -/
inductive PQResult
  | success (sql sqlAgain : String)
  | error (msg : String)
deriving DecidableEq

/-- `EnhancedDatabaseManager.process_query`, modelled through its extraction
decisions: a failed extraction stage is caught by the outer handler and
returned as a `status: error` payload with the raised message; on success
the source calls `_extract_sql_query` a second time (line 113) whose failure
is likewise caught by the outer handler; the downstream visualization-tool
execution on the success path is external and not modelled further. -/
def processQueryOutcome (r : AgentResult) : PQResult :=
  match extractStage r with
  | none => .error "Could not extract SQL query"
  | some q =>
    match extractSqlQuery r with
    | none => .error "No SQL query found in agent result"
    | some q2 => .success q q2

/-! ## The visualization classifier
(`EnhancedDatabaseManager._determine_visualization_type`, lines 172-195) -/

/-- Trend keywords of rule 1. -/
def trendKw : List String := ["trend", "over time", "monthly", "daily"]

/-- Comparison keywords of rule 2. -/
def compareKw : List String := ["compare", "comparison", "versus"]

/-- Distribution keywords of rule 3. -/
def distKw : List String := ["distribution", "proportion", "share"]

/-- Every keyword inspected by the classifier's rules. -/
def vizKeywords : List String := trendKw ++ compareKw ++ distKw

/-- `_determine_visualization_type`: the query is lowered, the rules are
tried in source order, and the first matching rule decides; the final
fallback is `bar`.  `columns` is `df.columns.tolist()`. -/
def determineVisualizationType (query : String) (columns : List String) : String :=
  let q := strLower query
  if columns.contains "date" && trendKw.any (fun k => strContains q k) then "line"
  else if columns.contains "product" && compareKw.any (fun k => strContains q k) then "bar"
  else if columns.contains "total_sales" && distKw.any (fun k => strContains q k) then "pie"
  else if columns.contains "product" then "bar"
  else if columns.contains "date" then "line"
  else "bar"

/-! ## The visualization formatter
(`EnhancedDatabaseManager._format_for_visualization`, lines 197-226)

A `DataFrame` built by `pd.DataFrame(raw_data)` is modelled as a list of
rows, each an association list from column name to cell text; the frame's
columns are the union of the rows' keys.  `pandas` itself is external: its
date conversion plus `sort_values('date')` is the function parameter
`dateSort`, and `.dt.strftime('%Y-%m-%d')` on one cell is `dateFmt` (the
claims below hold for every choice of these, so the pandas internals never
matter; the model treats the conversion as total).
-/

/-- One result row: column name to cell text. -/
abbrev Row := List (String × String)

/-- Column membership, `c in df.columns`: some row carries the key. -/
def hasCol (rows : List Row) (c : String) : Bool :=
  rows.any (fun r => r.any (fun kv => kv.1 == c))

/-- One cell of column `c` (absent keys print as `NaN` in pandas). -/
def rowGet (r : Row) (c : String) : String :=
  match r.find? (fun kv => kv.1 == c) with
  | some kv => kv.2
  | none => "NaN"

/-- `df[c].tolist()`. -/
def dfCol (rows : List Row) (c : String) : List String :=
  rows.map (fun r => rowGet r c)

/-- `df.index.tolist()` for a default integer index, printed. -/
def indexStrings (rows : List Row) : List String :=
  (List.range rows.length).map (fun n => toString n)

/-- A chart-payload field value: text or a list of cell texts. -/
inductive JVal
  | str (s : String)
  | arr (xs : List String)
deriving DecidableEq

/-- The outcome of `_format_for_visualization`: the returned dictionary
(`ok []` is the empty dict `\x7b\x7d`), or an uncaught pandas `KeyError` for a
missing column. -/
inductive VizOut
  | ok (fields : List (String × JVal))
  | keyError (col : String)
deriving DecidableEq

/-- `_format_for_visualization`: the empty frame short-circuits to the empty
dict; a `date` column is converted and the frame sorted by it (`dateSort`);
the formatter dictionary maps `line`, `bar` and `pie` to their shapes, and
`formatters.get(chart_type, lambda df: ...)` sends every other kind to the
empty dict.  Accessing a column absent from the frame raises `KeyError`,
with the `line` dict evaluating `df['date']` before `df['total_sales']`. -/
def formatForVisualization (dateSort : List Row → List Row)
    (dateFmt : String → String) (rows : List Row) (chartType : String) : VizOut :=
  if rows.isEmpty then .ok []
  else
    let rows1 := if hasCol rows "date" then dateSort rows else rows
    if chartType == "line" then
      if !(hasCol rows "date") then .keyError "date"
      else if !(hasCol rows "total_sales") then .keyError "total_sales"
      else
        .ok [("dates", .arr ((dfCol rows1 "date").map dateFmt)),
             ("sales", .arr (dfCol rows1 "total_sales")),
             ("chart_type", .str "line")]
    else if chartType == "bar" then
      if !(hasCol rows "total_sales") then .keyError "total_sales"
      else
        .ok [("categories", .arr (if hasCol rows "product" then dfCol rows1 "product" else indexStrings rows1)),
             ("sales", .arr (dfCol rows1 "total_sales")),
             ("chart_type", .str "bar")]
    else if chartType == "pie" then
      if !(hasCol rows "total_sales") then .keyError "total_sales"
      else
        .ok [("categories", .arr (if hasCol rows "product" then dfCol rows1 "product" else indexStrings rows1)),
             ("sales", .arr (dfCol rows1 "total_sales")),
             ("chart_type", .str "pie")]
    else .ok []

/-! ## The connection registries (`db_manager.py`)

The file holds two managers.  `DatabaseManager` (SQLAlchemy store) probes
first, then checks the name, then persists; `DatabaseConnectionManager`
(raw sqlite dict store) inserts with no name check at all, its only
uniqueness being the `id` primary key.
-/

/-- A persisted `DBConnection` record of `DatabaseManager`
(`password` holds the encrypted text). -/
structure DBConn where
  id : Nat
  name : String
  host : String
  port : Nat
  database : String
  username : String
  password : String
deriving DecidableEq

/-- The classified failures of `DatabaseManager.add_connection`: the
pre-insert probe's `HTTPException(400, "Connection test failed: ...")` and
the duplicate check's `HTTPException(400, "Connection name already exists")`. -/
inductive AddErr
  | connTestFailed
  | duplicateName
deriving DecidableEq

/-- `DatabaseManager.add_connection` (`db_manager.py`, lines 196-240):
`test_connection` runs first against the external server (its outcome is the
oracle `probeOk`; a failure raises before anything else happens); then the
store is queried for an equal name and a hit raises the duplicate error;
otherwise the password is encrypted (`encrypt` models the Fernet codec) and
the record is committed.  The returned list is the resulting store. -/
def dmAddConnection (probeOk : Bool) (encrypt : String → String)
    (store : List DBConn) (nextId : Nat) (name host : String) (port : Nat)
    (database username password : String) : Except AddErr DBConn × List DBConn :=
  if !probeOk then (.error .connTestFailed, store)
  else if store.any (fun c => c.name == name) then (.error .duplicateName, store)
  else
    let conn0 : DBConn := ⟨nextId, name, host, port, database, username, encrypt password⟩
    (.ok conn0, store ++ [conn0])

/-- A connection dictionary of `DatabaseConnectionManager`. -/
structure ConnDetails where
  id : String
  name : String
  dbType : String
  host : String
  port : Nat
  database : String
  username : String
  password : String
  uri : String
deriving DecidableEq

/-- `DatabaseConnectionManager.add_connection` (`db_manager.py`, lines
56-80): a plain sqlite `INSERT` keyed by the `id` primary key (a duplicate
id violates the constraint), followed by the in-memory dict update; no name
check of any kind.  Returns the new id and the resulting store. -/
def dcmAddConnection (store : List ConnDetails) (d : ConnDetails) :
    Except String (String × List ConnDetails) :=
  if store.any (fun c => c.id == d.id) then
    .error "UNIQUE constraint failed: connections.id"
  else
    .ok (d.id, store ++ [d])

/-! ## Connection URIs

`LangChainAgent.get_connection_uri` (`langchain_agent.py`, lines 30-37);
`create_connection` in `main.py` (lines 121-127) builds the identical
strings.  The port is a string field, as in the `DatabaseConnection`
pydantic model of `database_connection.py`.
-/

/-- `get_connection_uri`: plain interpolation of the raw fields (no URL
encoding anywhere); `none` models
`raise ValueError(f"Unsupported database type: ...")`. -/
def getConnectionUri (dbType username password host port database : String) :
    Option String :=
  if strLower dbType == "postgresql" then
    some ("postgresql://" ++ username ++ ":" ++ password ++ "@" ++ host ++ ":"
      ++ port ++ "/" ++ database)
  else if strLower dbType == "mysql" then
    some ("mysql+pymysql://" ++ username ++ ":" ++ password ++ "@" ++ host ++ ":"
      ++ port ++ "/" ++ database)
  else none

/-- Split a character list at the first occurrence of `c`: the segment
before it and the segment after it, or `none` when `c` is absent. -/
def splitFirstChar (c : Char) : List Char → Option (List Char × List Char)
  | [] => none
  | x :: xs =>
    if x == c then some ([], xs)
    else
      match splitFirstChar c xs with
      | some (a, b) => some (x :: a, b)
      | none => none

/-- Split a character list at the last occurrence of `c`. -/
def splitLastChar (c : Char) (l : List Char) : Option (List Char × List Char) :=
  match splitFirstChar c l.reverse with
  | some (x, y) => some (y.reverse, x.reverse)
  | none => none

/-- The components a generic URI parser recovers from a connection string. -/
structure UriParts where
  scheme : String
  username : String
  host : String
  port : String
  database : String
deriving DecidableEq

/-- Modelled from the spec: re-parsing a produced connection URI, with the
generic-URI conventions of RFC 3986 as implemented by `urllib.parse` (no
parser exists in the repository): the scheme precedes the first colon and is
followed by `//`; the authority runs to the next `/` and the path after that
slash is the database name; within the authority the userinfo precedes the
last `@`; the username is the userinfo up to its first colon; the port
follows the last colon of the host-port segment. -/
def uriParse (uri : String) : Option UriParts :=
  match splitFirstChar ':' uri.toList with
  | none => none
  | some (scheme, rest) =>
    match rest with
    | '/' :: '/' :: rest2 =>
      match splitFirstChar '/' rest2 with
      | none => none
      | some (auth, path) =>
        let hu :=
          match splitLastChar '@' auth with
          | some (ui, hp) => (ui, hp)
          | none => ([], auth)
        let username :=
          match splitFirstChar ':' hu.1 with
          | some (u, _) => u
          | none => hu.1
        let hp :=
          match splitLastChar ':' hu.2 with
          | some (h, p) => (h, p)
          | none => (hu.2, [])
        some ⟨String.mk scheme, String.mk username, String.mk hp.1,
              String.mk hp.2, String.mk path⟩
    | _ => none

/-! ## Liveness probes (`database_connection.py`)

The probes are straight-line code whose resource behaviour depends on where
the external driver raises; each constructor of `ProbeStage` names one such
path, and the event list records the acquisitions and releases the source
performs on that path.
-/

/-- Where a probe's external calls fail: the connect call itself raises, the
trivial read after a successful connect raises, or everything succeeds. -/
inductive ProbeStage
  | connectFail
  | queryFail
  | ok
deriving DecidableEq

/-- A resource acquisition or release, tagged with the handle's name. -/
inductive REvent
  | acq (handle : String)
  | rel (handle : String)
deriving DecidableEq

/-- `test_postgresql_connection` (lines 43-115): `psycopg2.connect` acquires
`conn`; the `with conn.cursor()` block acquires the cursor and releases it
on both outcomes of `cur.execute('SELECT version()')`; `conn.close()` is
reached only on the success path, while on a query failure the handler
re-raises an `HTTPException` without closing `conn`. -/
def pgProbeEvents : ProbeStage → List REvent
  | .connectFail => []
  | .queryFail => [.acq "conn", .acq "cursor", .rel "cursor"]
  | .ok => [.acq "conn", .acq "cursor", .rel "cursor", .rel "conn"]

/-- `test_mongodb_connection` (lines 145-173): the `MongoClient` constructor
acquires the client; `client.close()` follows `list_database_names()` only
on success, while a raise inside the read reaches the `except` handler with
the client still open. -/
def mongoProbeEvents : ProbeStage → List REvent
  | .connectFail => []
  | .queryFail => [.acq "client"]
  | .ok => [.acq "client", .rel "client"]

/-- Number of acquisitions of a handle in an event list. -/
def acqCount (h : String) (es : List REvent) : Nat :=
  (es.filter (fun e => e == REvent.acq h)).length

/-- Number of releases of a handle in an event list. -/
def relCount (h : String) (es : List REvent) : Nat :=
  (es.filter (fun e => e == REvent.rel h)).length

/-- Every acquired handle is released as often as it was acquired. -/
def releasesAll (es : List REvent) : Bool :=
  es.all (fun e =>
    match e with
    | .acq h => acqCount h es == relCount h es
    | .rel _ => true)

/-! ## Helper lemmas -/

/-- A step is a well-formed pair naming the query-execution tool. -/
def isQueryToolStep : TraceStep → Bool
  | .pair a _ => a.tool == some "sql_db_query"
  | .malformed => false

theorem toList_append (s t : String) : (s ++ t).toList = s.toList ++ t.toList := by
  simp [String.toList]

theorem scanSteps_eq_head (steps : List TraceStep) :
    scanSteps steps = (steps.filterMap stepCandidate).head? := by
  induction steps with
  | nil => rfl
  | cons s rest ih =>
    cases h : stepCandidate s with
    | some q => simp [scanSteps, h, List.filterMap_cons]
    | none => simp [scanSteps, h, List.filterMap_cons, ih]

theorem getLast?_cons_match (a : α) (l : List α) :
    (a :: l).getLast? =
      match l.getLast? with
      | some x => some x
      | none => some a := by
  induction l generalizing a with
  | nil => rfl
  | cons b m ih =>
    rw [List.getLast?_cons_cons, ih b]
    cases hm : m.getLast? with
    | some x => simp [ih b, hm]
    | none => simp [ih b, hm]

theorem lcaScan_eq (steps : List TraceStep) (acc : Option String) :
    lcaScan steps acc =
      match (steps.filterMap lcaCand).getLast? with
      | some x => some x
      | none => acc := by
  induction steps generalizing acc with
  | nil => rfl
  | cons s rest ih =>
    cases h : lcaCand s with
    | some ti =>
      simp only [lcaScan, h, ih (some ti), List.filterMap_cons, getLast?_cons_match]
      cases hr : (rest.filterMap lcaCand).getLast? <;> simp [hr]
    | none =>
      simp only [lcaScan, h, ih acc, List.filterMap_cons]

theorem lcaExtractSql_eq (steps : List TraceStep) :
    lcaExtractSql steps = (steps.filterMap lcaCand).getLast? := by
  rw [lcaExtractSql, lcaScan_eq]
  cases h : (steps.filterMap lcaCand).getLast? <;> simp

theorem scanSteps_none_of_noTool (steps : List TraceStep)
    (h : steps.all (fun s => !(isQueryToolStep s)) = true) :
    scanSteps steps = none := by
  induction steps with
  | nil => rfl
  | cons s rest ih =>
    rw [List.all_cons, Bool.and_eq_true] at h
    have hs : stepCandidate s = none := by
      cases s with
      | malformed => rfl
      | pair a obs =>
        have : (a.tool == some "sql_db_query") = false := by
          have := h.1
          simpa [isQueryToolStep] using this
        simp [stepCandidate, this]
    simp [scanSteps, hs, ih h.2]

theorem isPrefixB_append_drop (a b l : List Char)
    (h : isPrefixB (a ++ b) l = true) :
    isPrefixB b (List.drop a.length l) = true := by
  induction a generalizing l with
  | nil => simpa using h
  | cons x xs ih =>
    cases l with
    | nil => simp [isPrefixB] at h
    | cons y ys =>
      rw [List.cons_append, isPrefixB, Bool.and_eq_true] at h
      simpa using ih ys h.2

theorem hasSubL_of_isPrefixB (n l : List Char) (h : isPrefixB n l = true) :
    hasSubL n l = true := by
  cases l with
  | nil => simpa [hasSubL] using h
  | cons c cs => simp [hasSubL, h]

theorem hasSubL_of_drop (n : List Char) (k : Nat) (l : List Char)
    (h : hasSubL n (List.drop k l) = true) : hasSubL n l = true := by
  induction k generalizing l with
  | zero => simpa using h
  | succ k ih =>
    cases l with
    | nil => simpa using h
    | cons c cs =>
      rw [List.drop_succ_cons] at h
      have := ih cs h
      simp [hasSubL, this]

theorem ciHasPrefix_eq_isPrefixB (p l : List Char) :
    ciHasPrefix p l = isPrefixB p (lowerL l) := by
  induction p generalizing l with
  | nil => cases l <;> rfl
  | cons x xs ih =>
    cases l with
    | nil => rfl
    | cons c cs => simp [ciHasPrefix, isPrefixB, lowerL, ih cs]

theorem lowerL_drop (k : Nat) (l : List Char) :
    lowerL (List.drop k l) = List.drop k (lowerL l) := by
  simp [lowerL, List.map_drop]

theorem aiPat_decomp : aiPat = aiHead ++ selLower := by decide

/-- A case-insensitive hit of the fallback pattern forces a lowercase
`select` substring in the lowered text. -/
theorem hasSub_select_of_ciHasPrefix (l : List Char)
    (h : ciHasPrefix aiPat l = true) :
    hasSubL selLower (lowerL l) = true := by
  rw [ciHasPrefix_eq_isPrefixB, aiPat_decomp] at h
  have h2 := isPrefixB_append_drop aiHead selLower (lowerL l) h
  have h3 := hasSubL_of_isPrefixB _ _ h2
  exact hasSubL_of_drop _ _ _ h3

theorem hasSub_select_of_ciSel (l : List Char)
    (h : ciHasPrefix selLower l = true) :
    hasSubL selLower (lowerL l) = true := by
  rw [ciHasPrefix_eq_isPrefixB] at h
  exact hasSubL_of_isPrefixB _ _ h

theorem findallAIFuel_nil_of_noSelect (fuel : Nat) (cs : List Char)
    (h : hasSubL selLower (lowerL cs) = false) :
    findallAIFuel fuel cs = [] := by
  induction fuel generalizing cs with
  | zero => rfl
  | succ fuel ih =>
    cases cs with
    | nil => rfl
    | cons c cs =>
      have hci : ciHasPrefix aiPat (c :: cs) = false := by
        cases hcc : ciHasPrefix aiPat (c :: cs) with
        | false => rfl
        | true => rw [hasSub_select_of_ciHasPrefix _ hcc] at h; cases h
      have htail : hasSubL selLower (lowerL cs) = false := by
        rw [lowerL, List.map_cons, hasSubL, Bool.or_eq_false_iff] at h
        exact h.2
      simp [findallAIFuel, hci, ih cs htail]

theorem findallRawFuel_nil_of_noSelect (fuel : Nat) (cs : List Char)
    (h : hasSubL selLower (lowerL cs) = false) :
    findallRawFuel fuel cs = [] := by
  induction fuel generalizing cs with
  | zero => rfl
  | succ fuel ih =>
    cases cs with
    | nil => rfl
    | cons c cs =>
      have hci : ciHasPrefix selLower (c :: cs) = false := by
        cases hcc : ciHasPrefix selLower (c :: cs) with
        | false => rfl
        | true => rw [hasSub_select_of_ciSel _ hcc] at h; cases h
      have htail : hasSubL selLower (lowerL cs) = false := by
        rw [lowerL, List.map_cons, hasSubL, Bool.or_eq_false_iff] at h
        exact h.2
      simp [findallRawFuel, hci, ih cs htail]

/-! ## Claim C1 -/

/-- C1 counterexample: a trace with two `sql_db_query` steps on which
`_extract_sql_query` returns the first step's SQL text, not the second's,
refuting the claim that the extractor is last-match-wins over steps. -/
theorem C1_counterexample :
    extractSqlQuery ⟨[.pair ⟨some "sql_db_query", "ti1"⟩ "SELECT a",
                      .pair ⟨some "sql_db_query", "ti2"⟩ "SELECT b"], ""⟩
      = some "SELECT a" ∧ ("SELECT a" : String) ≠ "SELECT b" :=
  ⟨by decide, by decide⟩

/-- C1 (amended): over the steps of a trace,
`EnhancedDatabaseManager._extract_sql_query` is first-match-wins — whenever
the step scan has at least one candidate, the extractor returns the first
one — while the extraction loop of `LangChainAgent.process_query` keeps the
last `sql_db_query` step's tool input (last-match-wins). -/
theorem C1_step_scan_first_match (r : AgentResult) (q : String)
    (h : (r.steps.filterMap stepCandidate).head? = some q) :
    extractSqlQuery r = some q ∧
    lcaExtractSql r.steps = (r.steps.filterMap lcaCand).getLast? := by
  constructor
  · simp only [extractSqlQuery, scanSteps_eq_head, h]
  · exact lcaExtractSql_eq r.steps

/-- C1 witness: the amended theorem applied to the two-step trace. -/
theorem C1_step_scan_first_match_witness :
    ((AgentResult.mk [.pair ⟨some "sql_db_query", "ti1"⟩ "SELECT a",
        .pair ⟨some "sql_db_query", "ti2"⟩ "SELECT b"] "").steps.filterMap
          stepCandidate).head? = some "SELECT a" ∧
    (extractSqlQuery (AgentResult.mk [.pair ⟨some "sql_db_query", "ti1"⟩ "SELECT a",
        .pair ⟨some "sql_db_query", "ti2"⟩ "SELECT b"] "") = some "SELECT a" ∧
      lcaExtractSql (AgentResult.mk [.pair ⟨some "sql_db_query", "ti1"⟩ "SELECT a",
        .pair ⟨some "sql_db_query", "ti2"⟩ "SELECT b"] "").steps
        = ((AgentResult.mk [.pair ⟨some "sql_db_query", "ti1"⟩ "SELECT a",
            .pair ⟨some "sql_db_query", "ti2"⟩ "SELECT b"] "").steps.filterMap
              lcaCand).getLast?) :=
  ⟨by decide, C1_step_scan_first_match _ "SELECT a" (by decide)⟩

/-! ## Claim C3 -/

/-- C3 counterexample: the flattened text `Action Input: SELECT 1` matches
the fallback pattern once, the step scan is empty, yet `_extract_sql_query`
raises instead of returning the match — the `"action_input"` guard (with an
underscore) is not satisfied by the pattern text itself (which has a space). -/
theorem C3_counterexample :
    (findallAI ("Action Input: SELECT 1" : String).toList).getLast?
        = some ("SELECT 1".toList) ∧
    scanSteps ([] : List TraceStep) = none ∧
    extractSqlQuery ⟨[], "Action Input: SELECT 1"⟩ = none :=
  ⟨by decide, rfl, by decide⟩

/-- C3 (amended): when the step scan fails, the flattened text contains the
literal substring `action_input` (case-insensitive), and the
`Action Input: SELECT` regex has at least one match, the extractor returns
the last match (captured up to the next `[`, newline or end of string),
stripped. -/
theorem C3_last_regex_match (r : AgentResult) (cap : List Char)
    (h1 : scanSteps r.steps = none)
    (h2 : strContains (strLower r.flat) "action_input" = true)
    (h3 : (findallAI r.flat.toList).getLast? = some cap) :
    extractSqlQuery r = some (String.mk (stripChars cap)) := by
  simp only [extractSqlQuery, h1, h2, h3, if_true]

/-- C3 witness: a flattened text with the `action_input` token and two
pattern occurrences; the extractor returns the stripped last capture. -/
theorem C3_last_regex_match_witness :
    strContains (strLower ("tool_input action_input Action Input: SELECT a\nthen action input: select b [(1,)] end" : String)) "action_input" = true ∧
    extractSqlQuery ⟨[], "tool_input action_input Action Input: SELECT a\nthen action input: select b [(1,)] end"⟩
      = some (String.mk (stripChars ("select b ".toList))) ∧
    String.mk (stripChars ("select b ".toList)) = "select b" :=
  ⟨by decide,
   C3_last_regex_match ⟨[], "tool_input action_input Action Input: SELECT a\nthen action input: select b [(1,)] end"⟩
     ("select b ".toList) (by decide) (by decide) (by decide),
   by decide⟩

/-! ## Claim C4 -/

/-- C4 counterexample: `DatabaseConnectionManager.add_connection` accepts a
request whose name equals an existing record's name (the ids differ) and
persists the second record — there is no duplicate-name check on this add
path, refuting the claim for it. -/
theorem C4_counterexample :
    dcmAddConnection [⟨"c1", "sales", "postgresql", "h1", 5432, "d1", "u1", "p1", "uri1"⟩]
        ⟨"c2", "sales", "mysql", "h2", 3306, "d2", "u2", "p2", "uri2"⟩
      = .ok ("c2",
          [⟨"c1", "sales", "postgresql", "h1", 5432, "d1", "u1", "p1", "uri1"⟩,
           ⟨"c2", "sales", "mysql", "h2", 3306, "d2", "u2", "p2", "uri2"⟩]) ∧
    (([⟨"c1", "sales", "postgresql", "h1", 5432, "d1", "u1", "p1", "uri1"⟩,
       ⟨"c2", "sales", "mysql", "h2", 3306, "d2", "u2", "p2", "uri2"⟩] : List ConnDetails).filter
        (fun c => c.name == "sales")).length = 2 :=
  ⟨rfl, by decide⟩

/-- C4 (amended): on the `DatabaseManager.add_connection` path, provided the
pre-insert liveness probe succeeds (the probe runs first, so its failure
surfaces as a connection-test error instead), an add whose name equals an
existing record's name fails with the duplicate-name error regardless of
every other field value, and the store is unchanged — the check precedes
persistence.  `DatabaseConnectionManager.add_connection` performs no such
check (see the counterexample). -/
theorem C4_duplicate_name_rejected (encrypt : String → String)
    (store : List DBConn) (nextId : Nat) (name host : String) (port : Nat)
    (database username password : String)
    (hdup : store.any (fun c => c.name == name) = true) :
    dmAddConnection true encrypt store nextId name host port database username password
      = (.error .duplicateName, store) := by
  simp [dmAddConnection, hdup]

/-- C4 witness: a duplicate-name add with every other field different is
rejected and the store is unchanged. -/
theorem C4_duplicate_name_rejected_witness :
    (([⟨1, "sales", "h1", 5432, "d1", "u1", "pw1"⟩] : List DBConn).any
        (fun c => c.name == "sales") = true) ∧
    dmAddConnection true (fun s => s) [⟨1, "sales", "h1", 5432, "d1", "u1", "pw1"⟩]
        2 "sales" "other-host" 9999 "other-db" "other-user" "other-pw"
      = (.error .duplicateName, [⟨1, "sales", "h1", 5432, "d1", "u1", "pw1"⟩]) :=
  ⟨by decide,
   C4_duplicate_name_rejected (fun s => s) [⟨1, "sales", "h1", 5432, "d1", "u1", "pw1"⟩]
     2 "sales" "other-host" 9999 "other-db" "other-user" "other-pw" (by decide)⟩

/-! ## Claim C5 -/

/-- C5: a trace with zero query-tool steps and no case-insensitive `SELECT`
substring anywhere in its flattened text makes every extraction strategy
fail, and `process_query` returns the terminal extraction error — never a
success payload. -/
theorem C5_no_query_terminal_error (r : AgentResult)
    (hsteps : r.steps.all (fun s => !(isQueryToolStep s)) = true)
    (hsel : strContains (strLower r.flat) "select" = false) :
    processQueryOutcome r = .error "Could not extract SQL query" := by
  have h1 : scanSteps r.steps = none := scanSteps_none_of_noTool _ hsteps
  have hsel2 : hasSubL selLower (lowerL r.flat.toList) = false := hsel
  have hai : findallAI r.flat.toList = [] := by
    rw [findallAI]; exact findallAIFuel_nil_of_noSelect _ _ hsel2
  have hraw : findallRawSelect r.flat.toList = [] := by
    rw [findallRawSelect]; exact findallRawFuel_nil_of_noSelect _ _ hsel2
  have hex : extractSqlQuery r = none := by
    simp only [extractSqlQuery, h1, hai, List.getLast?_nil]
    cases hg : strContains (strLower r.flat) "action_input" <;> simp
  have hrf : rawFallback r = none := by
    simp only [rawFallback, hraw, List.getLast?_nil]
  simp only [processQueryOutcome, extractStage, hex, hrf]

/-- C5 witness: a trace whose only step uses the table-listing tool and
whose flattened text has no `select` substring fails with the terminal
extraction error. -/
theorem C5_no_query_terminal_error_witness :
    ((AgentResult.mk [.pair ⟨some "sql_db_list_tables", "ti"⟩ "tables"]
        "the agent listed tables").steps.all (fun s => !(isQueryToolStep s)) = true) ∧
    strContains (strLower ("the agent listed tables" : String)) "select" = false ∧
    processQueryOutcome (AgentResult.mk [.pair ⟨some "sql_db_list_tables", "ti"⟩ "tables"]
        "the agent listed tables") = .error "Could not extract SQL query" :=
  ⟨by decide, by decide,
   C5_no_query_terminal_error _ (by decide) (by decide)⟩

/-! ## Claim C6 -/

/-- C6: the classifier applies its rules in source order, first match wins:
the three example questions classify as `line`, `bar` and `pie`, and any
question containing none of the rule keywords classifies as `bar` with
columns `product`, `total_sales` (rule 4). -/
theorem C6_classifier_rules :
    determineVisualizationType "show monthly sales trend" ["date", "total_sales"] = "line" ∧
    determineVisualizationType "compare products" ["product", "total_sales"] = "bar" ∧
    determineVisualizationType "market share distribution" ["product", "total_sales"] = "pie" ∧
    ∀ q : String,
      vizKeywords.all (fun k => !(strContains (strLower q) k)) = true →
      determineVisualizationType q ["product", "total_sales"] = "bar" := by
  refine ⟨by decide, by decide, by decide, ?_⟩
  intro q hq
  simp only [vizKeywords, trendKw, compareKw, distKw, List.cons_append, List.nil_append,
    List.all_cons, List.all_nil, Bool.and_eq_true, Bool.not_eq_true', Bool.and_true] at hq
  obtain ⟨h1, h2, h3, h4, h5, h6, h7, h8, h9, h10⟩ := hq
  have hd : ((["product", "total_sales"] : List String).contains "date") = false := by decide
  have hp : ((["product", "total_sales"] : List String).contains "product") = true := by decide
  have ht : ((["product", "total_sales"] : List String).contains "total_sales") = true := by decide
  simp [determineVisualizationType, trendKw, compareKw, distKw, hd, hp, ht,
    h1, h2, h3, h4, h5, h6, h7, h8, h9, h10]

/-- C6 witness: the universal conjunct applied to a keyword-free question. -/
theorem C6_classifier_rules_witness :
    (vizKeywords.all (fun k => !(strContains (strLower "total sales by product 2023") k)) = true) ∧
    determineVisualizationType "total sales by product 2023" ["product", "total_sales"] = "bar" :=
  ⟨by decide, C6_classifier_rules.2.2.2 "total sales by product 2023" (by decide)⟩

/-! ## Claim C7 -/

/-- C7 counterexample: on the path where the trivial read raises after the
connection was established, neither probe releases the connection handle it
opened — `conn.close()` / `client.close()` are unreachable there. -/
theorem C7_counterexample :
    releasesAll (pgProbeEvents .queryFail) = false ∧
    releasesAll (mongoProbeEvents .queryFail) = false := by decide

/-- C7 (amended): both probes release every handle on the success path, and
open nothing when the connect call itself fails, but on the path where the
trivial read raises after a successful connect the opened connection handle
is not released (only the PostgreSQL cursor's `with` block releases). -/
theorem C7_release_paths :
    releasesAll (pgProbeEvents .ok) = true ∧
    releasesAll (pgProbeEvents .connectFail) = true ∧
    releasesAll (pgProbeEvents .queryFail) = false ∧
    releasesAll (mongoProbeEvents .ok) = true ∧
    releasesAll (mongoProbeEvents .connectFail) = true ∧
    releasesAll (mongoProbeEvents .queryFail) = false := by decide

/-! ## Claim C8 -/

/-- C8: for the empty row set the formatter returns the empty chart spec for
every chart kind, including `card`, without raising — the emptiness check
precedes every column access. -/
theorem C8_empty_rows_empty_spec (dateSort : List Row → List Row)
    (dateFmt : String → String) (chartType : String) :
    formatForVisualization dateSort dateFmt [] chartType = .ok [] := by
  simp [formatForVisualization]

/-! ## Claim C9 -/

/-- C9 counterexample: on a non-empty row set the `card` kind yields the
empty dict — not a card-kind spec with a summary — because the formatter
dictionary has no `card` entry and `.get` falls back to the empty-dict
lambda. -/
theorem C9_counterexample :
    formatForVisualization (fun r => r) (fun s => s)
        [[("product", "A"), ("total_sales", "5")]] "card" = .ok [] ∧
    ¬ (("chart_type", JVal.str "card") ∈ ([] : List (String × JVal))) :=
  ⟨by decide, by simp⟩

/-- C9 (amended): for every row set, `format(rows, card)` returns the empty
chart spec: `card` has no formatter entry, so it falls through to the
default empty-dict lambda of `formatters.get`. -/
theorem C9_card_empty_spec (dateSort : List Row → List Row)
    (dateFmt : String → String) (rows : List Row) :
    formatForVisualization dateSort dateFmt rows "card" = .ok [] := by
  have hl : (("card" : String) == "line") = false := by decide
  have hb : (("card" : String) == "bar") = false := by decide
  have hp : (("card" : String) == "pie") = false := by decide
  by_cases h : rows.isEmpty <;> simp [formatForVisualization, h, hl, hb, hp]

/-! ## Claim C10 -/

/-- C10: on every non-empty row set lacking a `total_sales` column, the
`line`, `bar` and `pie` kinds raise a `KeyError` instead of returning a
spec (for `line`, possibly the `date` KeyError first), whatever other
columns are present. -/
theorem C10_missing_total_sales_raises (dateSort : List Row → List Row)
    (dateFmt : String → String) (rows : List Row) (kind : String)
    (hne : rows ≠ [])
    (hts : hasCol rows "total_sales" = false)
    (hkind : kind = "line" ∨ kind = "bar" ∨ kind = "pie") :
    formatForVisualization dateSort dateFmt rows kind = .keyError "total_sales" ∨
    formatForVisualization dateSort dateFmt rows kind = .keyError "date" := by
  have hempty : rows.isEmpty = false := by
    cases rows with
    | nil => exact absurd rfl hne
    | cons r rest => rfl
  rcases hkind with rfl | rfl | rfl
  · cases hd : hasCol rows "date" with
    | true => left; simp [formatForVisualization, hempty, hd, hts]
    | false => right; simp [formatForVisualization, hempty, hd, hts]
  · left
    have hb : (("bar" : String) == "line") = false := by decide
    simp [formatForVisualization, hempty, hts, hb]
  · left
    have h1 : (("pie" : String) == "line") = false := by decide
    have h2 : (("pie" : String) == "bar") = false := by decide
    simp [formatForVisualization, hempty, hts, h1, h2]

/-- C10 witness: one row with a `product` column and another numeric column
`amount` but no `total_sales`; the `bar` kind raises the `total_sales`
KeyError. -/
theorem C10_missing_total_sales_raises_witness :
    (([[("product", "A"), ("amount", "5")]] : List Row) ≠ []) ∧
    hasCol [[("product", "A"), ("amount", "5")]] "total_sales" = false ∧
    (formatForVisualization (fun r => r) (fun s => s)
        [[("product", "A"), ("amount", "5")]] "bar" = .keyError "total_sales" ∨
     formatForVisualization (fun r => r) (fun s => s)
        [[("product", "A"), ("amount", "5")]] "bar" = .keyError "date") :=
  ⟨by decide, by decide,
   C10_missing_total_sales_raises (fun r => r) (fun s => s)
     [[("product", "A"), ("amount", "5")]] "bar" (by decide) (by decide)
     (Or.inr (Or.inl rfl))⟩

/-! ## Claim C2: lemmas about the URI splitters -/

theorem splitFirstChar_append (c : Char) (a b : List Char) (h : c ∉ a) :
    splitFirstChar c (a ++ c :: b) = some (a, b) := by
  induction a with
  | nil => simp [splitFirstChar]
  | cons x xs ih =>
    simp only [List.mem_cons, not_or] at h
    have hx : (x == c) = false := by
      simp [beq_eq_false_iff_ne]
      exact fun hh => h.1 hh.symm
    simp [splitFirstChar, hx, ih h.2]

theorem splitLastChar_append (c : Char) (a b : List Char) (h : c ∉ b) :
    splitLastChar c (a ++ c :: b) = some (a, b) := by
  have hrev : (a ++ c :: b).reverse = b.reverse ++ c :: a.reverse := by
    simp [List.reverse_append]
  have hb : c ∉ b.reverse := by simpa using h
  rw [splitLastChar, hrev, splitFirstChar_append c _ _ hb]
  simp

/-- Re-parsing an assembled connection string recovers its components when
the username has no colon or slash, the password no slash, and host and
port none of colon, at-sign, slash (the database name is the whole path). -/
theorem uriParse_parts (schemeS : String) (U P H PT D : List Char)
    (hs1 : ':' ∉ schemeS.toList)
    (hU1 : ':' ∉ U) (hU2 : '/' ∉ U)
    (hP : '/' ∉ P)
    (hH2 : '@' ∉ H) (hH3 : '/' ∉ H)
    (hT1 : ':' ∉ PT) (hT2 : '@' ∉ PT) (hT3 : '/' ∉ PT) :
    uriParse (String.mk (schemeS.toList ++ ':' :: '/' :: '/' ::
        (U ++ ':' :: (P ++ '@' :: (H ++ ':' :: (PT ++ '/' :: D))))))
      = some ⟨schemeS, String.mk U, String.mk H, String.mk PT, String.mk D⟩ := by
  have h1 : splitFirstChar ':' (schemeS.toList ++ ':' :: '/' :: '/' ::
      (U ++ ':' :: (P ++ '@' :: (H ++ ':' :: (PT ++ '/' :: D)))))
      = some (schemeS.toList, '/' :: '/' ::
          (U ++ ':' :: (P ++ '@' :: (H ++ ':' :: (PT ++ '/' :: D))))) :=
    splitFirstChar_append ':' _ _ hs1
  have hassoc : U ++ ':' :: (P ++ '@' :: (H ++ ':' :: (PT ++ '/' :: D)))
      = (U ++ ':' :: (P ++ '@' :: (H ++ ':' :: PT))) ++ '/' :: D := by
    simp [List.append_assoc]
  have hslash : '/' ∉ U ++ ':' :: (P ++ '@' :: (H ++ ':' :: PT)) := by
    simp only [List.mem_append, List.mem_cons, not_or]
    exact ⟨hU2, by decide, hP, by decide, hH3, by decide, hT3⟩
  have h2 : splitFirstChar '/' (U ++ ':' :: (P ++ '@' :: (H ++ ':' :: (PT ++ '/' :: D))))
      = some (U ++ ':' :: (P ++ '@' :: (H ++ ':' :: PT)), D) := by
    rw [hassoc]
    exact splitFirstChar_append '/' _ _ hslash
  have hassoc2 : U ++ ':' :: (P ++ '@' :: (H ++ ':' :: PT))
      = (U ++ ':' :: P) ++ '@' :: (H ++ ':' :: PT) := by
    simp [List.append_assoc]
  have hat : '@' ∉ H ++ ':' :: PT := by
    simp only [List.mem_append, List.mem_cons, not_or]
    exact ⟨hH2, by decide, hT2⟩
  have h3 : splitLastChar '@' (U ++ ':' :: (P ++ '@' :: (H ++ ':' :: PT)))
      = some (U ++ ':' :: P, H ++ ':' :: PT) := by
    rw [hassoc2]
    exact splitLastChar_append '@' _ _ hat
  have h4 : splitFirstChar ':' (U ++ ':' :: P) = some (U, P) :=
    splitFirstChar_append ':' _ _ hU1
  have h5 : splitLastChar ':' (H ++ ':' :: PT) = some (H, PT) :=
    splitLastChar_append ':' _ _ hT1
  rw [uriParse]
  rw [show (String.mk (schemeS.toList ++ ':' :: '/' :: '/' ::
      (U ++ ':' :: (P ++ '@' :: (H ++ ':' :: (PT ++ '/' :: D)))))).toList
      = schemeS.toList ++ ':' :: '/' :: '/' ::
        (U ++ ':' :: (P ++ '@' :: (H ++ ':' :: (PT ++ '/' :: D)))) from rfl]
  rw [h1]
  simp only [h2, h3, h4, h5]
  rfl

/-- C2 counterexample: `get_connection_uri` does not URL-encode; with the
reserved character `:` in the username, re-parsing the produced URI yields
the truncated username `user`, not the original `user:x`. -/
theorem C2_counterexample :
    (getConnectionUri "postgresql" "user:x" "pw" "localhost" "5432" "db").bind uriParse
      = some ⟨"postgresql", "user", "localhost", "5432", "db"⟩ ∧
    ("user" : String) ≠ "user:x" :=
  ⟨by decide, by decide⟩

/-- C2 (amended): `get_connection_uri` interpolates the raw fields without
URL encoding; for both supported backend kinds, building the URI and
re-parsing it yields the original host, port, database name and username
whenever the username contains no `:` or `/`, the password no `/`, and the
host and the port none of `:`, `@`, `/`. -/
theorem C2_uri_roundtrip (u p h pt d : String)
    (hU1 : ':' ∉ u.toList) (hU2 : '/' ∉ u.toList)
    (hP : '/' ∉ p.toList)
    (_hH1 : ':' ∉ h.toList) (hH2 : '@' ∉ h.toList) (hH3 : '/' ∉ h.toList)
    (hT1 : ':' ∉ pt.toList) (hT2 : '@' ∉ pt.toList) (hT3 : '/' ∉ pt.toList) :
    ((getConnectionUri "postgresql" u p h pt d).bind uriParse
        = some ⟨"postgresql", u, h, pt, d⟩) ∧
    ((getConnectionUri "mysql" u p h pt d).bind uriParse
        = some ⟨"mysql+pymysql", u, h, pt, d⟩) := by
  have hcolon : ((":" : String).toList) = [':'] := by decide
  have hat2 : (("@" : String).toList) = ['@'] := by decide
  have hsl : (("/" : String).toList) = ['/'] := by decide
  constructor
  · have hsch : (("postgresql://" : String).toList)
        = "postgresql".toList ++ [':', '/', '/'] := by decide
    have hlist : ("postgresql://" ++ u ++ ":" ++ p ++ "@" ++ h ++ ":" ++ pt ++ "/" ++ d).toList
        = "postgresql".toList ++ ':' :: '/' :: '/' ::
          (u.toList ++ ':' :: (p.toList ++ '@' :: (h.toList ++ ':' :: (pt.toList ++ '/' :: d.toList)))) := by
      simp [toList_append, hcolon, hat2, hsl, hsch, List.append_assoc]
    have hstr : ("postgresql://" ++ u ++ ":" ++ p ++ "@" ++ h ++ ":" ++ pt ++ "/" ++ d)
        = String.mk ("postgresql".toList ++ ':' :: '/' :: '/' ::
          (u.toList ++ ':' :: (p.toList ++ '@' :: (h.toList ++ ':' :: (pt.toList ++ '/' :: d.toList))))) := by
      rw [← hlist]
      rfl
    have hfull : getConnectionUri "postgresql" u p h pt d
        = some ("postgresql://" ++ u ++ ":" ++ p ++ "@" ++ h ++ ":" ++ pt ++ "/" ++ d) := rfl
    have hparse := uriParse_parts "postgresql" u.toList p.toList h.toList pt.toList d.toList
      (by decide) hU1 hU2 hP hH2 hH3 hT1 hT2 hT3
    rw [hfull, hstr]
    exact hparse
  · have hsch : (("mysql+pymysql://" : String).toList)
        = "mysql+pymysql".toList ++ [':', '/', '/'] := by decide
    have hlist : ("mysql+pymysql://" ++ u ++ ":" ++ p ++ "@" ++ h ++ ":" ++ pt ++ "/" ++ d).toList
        = "mysql+pymysql".toList ++ ':' :: '/' :: '/' ::
          (u.toList ++ ':' :: (p.toList ++ '@' :: (h.toList ++ ':' :: (pt.toList ++ '/' :: d.toList)))) := by
      simp [toList_append, hcolon, hat2, hsl, hsch, List.append_assoc]
    have hstr : ("mysql+pymysql://" ++ u ++ ":" ++ p ++ "@" ++ h ++ ":" ++ pt ++ "/" ++ d)
        = String.mk ("mysql+pymysql".toList ++ ':' :: '/' :: '/' ::
          (u.toList ++ ':' :: (p.toList ++ '@' :: (h.toList ++ ':' :: (pt.toList ++ '/' :: d.toList))))) := by
      rw [← hlist]
      rfl
    have hfull : getConnectionUri "mysql" u p h pt d
        = some ("mysql+pymysql://" ++ u ++ ":" ++ p ++ "@" ++ h ++ ":" ++ pt ++ "/" ++ d) := rfl
    have hparse := uriParse_parts "mysql+pymysql" u.toList p.toList h.toList pt.toList d.toList
      (by decide) hU1 hU2 hP hH2 hH3 hT1 hT2 hT3
    rw [hfull, hstr]
    exact hparse

/-- C2 witness: a password holding the reserved characters `@` and `:` and
encoding-free fields otherwise; both backends round-trip. -/
theorem C2_uri_roundtrip_witness :
    (':' ∉ ("admin" : String).toList) ∧
    (((getConnectionUri "postgresql" "admin" "p@ss:w" "db.example.com" "5432" "salesdb").bind uriParse
        = some ⟨"postgresql", "admin", "db.example.com", "5432", "salesdb"⟩) ∧
     ((getConnectionUri "mysql" "admin" "p@ss:w" "db.example.com" "5432" "salesdb").bind uriParse
        = some ⟨"mysql+pymysql", "admin", "db.example.com", "5432", "salesdb"⟩)) :=
  ⟨by decide,
   C2_uri_roundtrip "admin" "p@ss:w" "db.example.com" "5432" "salesdb"
     (by decide) (by decide) (by decide) (by decide) (by decide) (by decide)
     (by decide) (by decide) (by decide)⟩
